import Mathlib

/-!
Verification of the YouTube-summarizer FastAPI service (FAST_api.py).

The program is a single HTTP endpoint `POST /summarize` that validates the
request, extracts a video id from the URL, fetches metadata and a transcript,
assembles a prompt and calls an LLM.  External services (the `validators`
library, the YouTube data API, the transcript API and the Groq LLM) are
modelled as an oracle record `Env`; everything else is translated directly
from the source.  Calls to external services are traced in a `List ExtCall`
so that claims of the form "no network call is attempted" can be stated.
-/

/-- Character class `[0-9A-Za-z_-]` of the video-id regex. -/
def isVidChar (c : Char) : Bool := c.isAlphanum || c = '_' || c = '-'

/-- Match of the group `([0-9A-Za-z_-]{11})` (followed by `.*`, which always
succeeds) at the head of `cs`: the first 11 characters, provided there are
at least 11 and all are in the class. -/
def takeToken (cs : List Char) : Option (List Char) :=
  if (cs.take 11).length = 11 && (cs.take 11).all isVidChar then
    some (cs.take 11)
  else
    none

/-- Attempt of the pattern `(?:v=|\/)([0-9A-Za-z_-]{11}).*` at a fixed
starting position, the head character `c` and the remainder `rest`. -/
def matchTail (c : Char) (rest : List Char) : Option (List Char) :=
  if c = '/' then takeToken rest
  else
    match rest with
    | [] => none
    | c2 :: rest2 => if c = 'v' && c2 = '=' then takeToken rest2 else none

/-- Attempt of the pattern at the head of a list of characters. -/
def matchAt : List Char → Option (List Char)
  | [] => none
  | c :: rest => matchTail c rest

/-- `re.search`: try the pattern at each starting position from the left,
returning the group of the first position that matches. -/
def findMatch : List Char → Option (List Char)
  | [] => none
  | c :: rest =>
    match matchAt (c :: rest) with
    | some t => some t
    | none => findMatch rest

/-- `extract_video_id` of FAST_api.py: `re.search` of
`(?:v=|\/)([0-9A-Za-z_-]{11}).*` over the URL, returning group 1, or
`None` when there is no match. -/
def extract_video_id (url : String) : Option String :=
  (findMatch url.data).map (fun t => ⟨t⟩)

/-- The `language_codes` dictionary of FAST_api.py. -/
def language_codes : List (String × String) :=
  [("English", "en"), ("Arabic", "ar"), ("Spanish", "es"), ("French", "fr"),
   ("German", "de"), ("Italian", "it"), ("Portuguese", "pt"), ("Chinese", "zh"),
   ("Japanese", "ja"), ("Korean", "ko")]

/-- The pydantic request model `SummarizeRequest`. -/
structure SummarizeRequest where
  groq_api_key : String
  youtube_api_key : String
  url : String
  language : String := "English"
deriving DecidableEq, Repr

/-- Construction of a request from a JSON body in which the `language`
field may be absent; an absent field takes the pydantic default. -/
def mkSummarizeRequest (g y u : String) (lang : Option String) : SummarizeRequest :=
  { groq_api_key := g, youtube_api_key := y, url := u,
    language := lang.getD "English" }

/-- Oracle for the external world: the `validators.url` check, the YouTube
data API, the raw transcript API (a list of caption entry texts, or a raised
exception carried as its message string) and the Groq LLM call (keyed by the
API key and the formatted prompt). -/
structure Env where
  urlValid : String → Bool
  videoDetails : String → String → Except String (String × String)
  rawTranscript : String → String → Except String (List String)
  llm : String → String → Except String String

/-- `get_video_details` of FAST_api.py: one call to the video API, returning
the first item's title and description, or propagating any exception. -/
def get_video_details (env : Env) (api_key video_id : String) :
    Except String (String × String) :=
  env.videoDetails api_key video_id

/-- `get_transcript` of FAST_api.py: fetch the caption entries and join the
texts with a space; any exception is caught, printed (second component of
the result, the console log) and converted to `none`.  The `Except` layer
of the first component records whether the function itself raises. -/
def get_transcript (env : Env) (video_id language_code : String) :
    Except String (Option String) × List String :=
  match env.rawTranscript video_id language_code with
  | .ok entries => (.ok (some (String.intercalate " " entries)), [])
  | .error e => (.ok none, ["An error occurred: " ++ e])

/-- The prompt template up to the `language` placeholder. -/
def templateA : String :=
  "\nContent Summary Request\n\nLanguage: "

/-- The prompt template between the `language` and `text` placeholders. -/
def templateB : String :=
  "\nWord Count: Approximately 300 words\nSource: "

/-- The prompt template after the `text` placeholder. -/
def templateC : String :=
  "\n\nObjective:\nProvide a concise yet comprehensive summary of the given content in the specified language. The summary should be accessible to readers unfamiliar with the original material.\n\nKey Focus Areas:\n1. Main points and central themes\n2. Key arguments and supporting evidence\n3. Significant conclusions or findings\n4. Notable insights or implications\n5. Methodologies used (if applicable)\n\nSummary Guidelines:\n- Begin with a brief introduction contextualizing the content.\n- Organize information logically, using clear transitions between ideas.\n- Prioritize the most crucial information from the source material.\n- Maintain objectivity, avoiding personal interpretations or biases.\n- Include relevant statistics, data points, or examples that substantiate main ideas.\n- Conclude with the overarching message or significance of the content.\n\nAdditional Considerations:\n- Identify any limitations, potential biases, or areas of controversy in the source material.\n- Highlight any unique or innovative aspects of the content.\n- If relevant, briefly mention the credibility or expertise of the source.\n\nFormatting:\n- Use clear, concise language appropriate for the target audience.\n- Employ bullet points or numbered lists for clarity when presenting multiple related points.\n- Include subheadings if it enhances readability and organization.\n\nNote: Ensure the summary stands alone as an informative piece, providing value even without access to the original content.\n"

/-- `PromptTemplate.format` applied to the fixed template with the `text`
and `language` variables substituted. -/
def prompt_format (text language : String) : String :=
  templateA ++ language ++ templateB ++ text ++ templateC

/-- The `combined_text` f-string of the endpoint. -/
def combined_text (title description transcript : String) : String :=
  "Title: " ++ title ++ "\n\nDescription: " ++ description ++
    "\n\nTranscript: " ++ transcript

/-- The fixed model name passed to `ChatGroq`. -/
def model_name : String := "llama-3.1-70b-versatile"

/-- The HTTP result of the endpoint: a 200 JSON body with a `summary`
field, or an `HTTPException` carrying a status code and a `detail`. -/
inductive ApiResult where
  | ok (summary : String)
  | httpError (status : Nat) (detail : String)
deriving DecidableEq, Repr

/-- Status code of a result; a successful JSON return is a 200. -/
def apiStatus : ApiResult → Nat
  | .ok _ => 200
  | .httpError s _ => s

/-- Detail string of a result (empty for a success). -/
def apiDetail : ApiResult → String
  | .ok _ => ""
  | .httpError _ d => d

/-- One traced call to an external network service. -/
inductive ExtCall where
  | videoDetailsCall (api_key video_id : String)
  | transcriptCall (video_id language_code : String)
  | llmCall (api_key prompt : String)
deriving DecidableEq, Repr

/-- `str()` of a fastapi/starlette `HTTPException`: `f"{status_code}: {detail}"`. -/
def http_exc_text (status : Nat) (detail : String) : String :=
  toString status ++ ": " ++ detail

/-- Python truthiness test `not transcript` on the value returned by
`get_transcript`: true for `None` and for the empty string. -/
def transcript_falsy : Option String → Bool
  | none => true
  | some s => s.isEmpty

/-- The `try:` block of the endpoint, from the `ChatGroq` construction to
the `return`.  An `.error` result is a raised exception carried as its
`str()` text; an `HTTPException` raised inside the block is such an
exception with text `http_exc_text status detail`.  The second component
traces the external calls issued. -/
def tryBody (env : Env) (req : SummarizeRequest) (lc : String) :
    Except String String × List ExtCall :=
  match extract_video_id req.url with
  | none => (.error (http_exc_text 400 "Invalid YouTube URL"), [])
  | some video_id =>
    match get_video_details env req.youtube_api_key video_id with
    | .error e => (.error e, [.videoDetailsCall req.youtube_api_key video_id])
    | .ok (title, description) =>
      let calls1 : List ExtCall :=
        [.videoDetailsCall req.youtube_api_key video_id,
         .transcriptCall video_id lc]
      match (get_transcript env video_id lc).1 with
      | .error e => (.error e, calls1)
      | .ok tr =>
        if transcript_falsy tr then
          (.error (http_exc_text 404 "Transcript not available"), calls1)
        else
          let transcript := tr.getD ""
          let ct := combined_text title description transcript
          let p := prompt_format ct req.language
          match env.llm req.groq_api_key p with
          | .error e => (.error e, calls1 ++ [.llmCall req.groq_api_key p])
          | .ok out => (.ok out, calls1 ++ [.llmCall req.groq_api_key p])

/-- The `summarize` endpoint of FAST_api.py.  URL validation and language
validation happen before the `try:` block; the `except Exception` clause
converts any exception raised inside the block — the `HTTPException`s of
the block included, since `HTTPException` subclasses `Exception` — into a
500 response whose detail wraps the exception text. -/
def summarize (env : Env) (req : SummarizeRequest) : ApiResult × List ExtCall :=
  if env.urlValid req.url = false then
    (.httpError 400 "Invalid URL", [])
  else
    match language_codes.lookup req.language with
    | none => (.httpError 400 "Invalid language", [])
    | some lc =>
      match tryBody env req lc with
      | (.ok out, calls) => (.ok out, calls)
      | (.error e, calls) => (.httpError 500 ("Error occurred: " ++ e), calls)

/-- Substring containment, for claims about a `detail` or an assembled
text containing a given literal. -/
def strContains (s sub : String) : Prop :=
  ∃ pre post : String, s = pre ++ sub ++ post

/-- A concrete environment for witnesses: every URL validates, the video
API returns title `T` and description `D`, the transcript API returns the
entries `hello` and `world`, and the LLM returns `SUM`. -/
def testEnv : Env :=
  { urlValid := fun _ => true,
    videoDetails := fun _ _ => .ok ("T", "D"),
    rawTranscript := fun _ _ => .ok ["hello", "world"],
    llm := fun _ _ => .ok "SUM" }

/-- `testEnv` with a transcript API that raises. -/
def testEnvNoTr : Env :=
  { testEnv with rawTranscript := fun _ _ => .error "boom" }

/-- `testEnv` with a video API that raises. -/
def testEnvDetailsErr : Env :=
  { testEnv with videoDetails := fun _ _ => .error "quota exceeded" }

/-- A concrete environment whose URL validator rejects every string, as
`validators.url` does on the string `not a url`. -/
def envReject : Env :=
  { testEnv with urlValid := fun _ => false }

/-- Specification-side (from the words of the claim about
`extract_video_id`): an 11-character token drawn from `[0-9A-Za-z_-]`. -/
def vidToken (t : List Char) : Prop :=
  t.length = 11 ∧ t.all isVidChar = true

/-- Specification-side: the token `t` occurs in `cs` starting at position
`k` and immediately follows either a `v=` substring or a `/` character. -/
def tokenAt (cs : List Char) (k : Nat) (t : List Char) : Prop :=
  vidToken t ∧ (cs.drop k).take 11 = t ∧
    ((1 ≤ k ∧ cs[k - 1]? = some '/') ∨
     (2 ≤ k ∧ cs[k - 2]? = some 'v' ∧ cs[k - 1]? = some '='))

/-- Claim C6: for every request whose URL string fails syntactic URL
validation, the summarize endpoint returns a 400 response with detail
`Invalid URL`, and no external call is made. -/
theorem summarize_invalid_url (env : Env) (req : SummarizeRequest)
    (h : env.urlValid req.url = false) :
    summarize env req = (.httpError 400 "Invalid URL", []) := by
  simp [summarize, h]

/-- Witness for C6 at the request body with URL `not a url`. -/
theorem summarize_invalid_url_witness :
    summarize envReject (mkSummarizeRequest "g" "y" "not a url" none) =
      (.httpError 400 "Invalid URL", []) :=
  summarize_invalid_url envReject _ rfl

/-- Claim C10: URL validation precedes language validation: when both the
URL and the language are invalid, the response is 400 `Invalid URL`, not
400 `Invalid language`. -/
theorem summarize_url_checked_before_language (env : Env) (req : SummarizeRequest)
    (h1 : env.urlValid req.url = false)
    (_h2 : language_codes.lookup req.language = none) :
    (summarize env req).1 = .httpError 400 "Invalid URL" ∧
    (summarize env req).1 ≠ .httpError 400 "Invalid language" := by
  simp [summarize, h1]

/-- Witness for C10 at URL `not a url` and language `Klingon`. -/
theorem summarize_url_checked_before_language_witness :
    (summarize envReject (mkSummarizeRequest "g" "y" "not a url" (some "Klingon"))).1 =
        .httpError 400 "Invalid URL" ∧
    (summarize envReject (mkSummarizeRequest "g" "y" "not a url" (some "Klingon"))).1 ≠
        .httpError 400 "Invalid language" :=
  summarize_url_checked_before_language envReject _ rfl (by decide)

/-- Counterexample to claim C5 as stated: a request whose language
(`Klingon`) is outside the supported set but whose URL is also invalid is
answered with 400 `Invalid URL`, not 400 `Invalid language`. -/
theorem summarize_invalid_language_counterexample :
    (summarize envReject (mkSummarizeRequest "g" "y" "not a url" (some "Klingon"))).1 =
        ApiResult.httpError 400 "Invalid URL" ∧
    (summarize envReject (mkSummarizeRequest "g" "y" "not a url" (some "Klingon"))).1 ≠
        ApiResult.httpError 400 "Invalid language" := by
  constructor
  · rfl
  · decide

/-- Claim C5 (amended): for every request whose URL passes syntactic
validation and whose language is not one of the ten supported names, the
endpoint returns 400 `Invalid language` with no external call made and
without reaching video-id extraction. -/
theorem summarize_invalid_language (env : Env) (req : SummarizeRequest)
    (h1 : env.urlValid req.url = true)
    (h2 : language_codes.lookup req.language = none) :
    summarize env req = (.httpError 400 "Invalid language", []) := by
  simp [summarize, h1, h2]

/-- Witness for the amended C5 at language `Klingon`. -/
theorem summarize_invalid_language_witness :
    summarize testEnv (mkSummarizeRequest "g" "y" "https://example.com" (some "Klingon")) =
      (.httpError 400 "Invalid language", []) :=
  summarize_invalid_language testEnv _ rfl (by decide)

/-- Claim C1 (actual behaviour): when the URL validates and the language is
supported but no video id can be extracted, no external call is made, but
the `HTTPException(400, "Invalid YouTube URL")` raised inside the `try:`
block is caught by `except Exception` and resurfaces as a 500 response
wrapping its text, instead of the 400 the claim states. -/
theorem summarize_no_video_id (env : Env) (req : SummarizeRequest) (lc : String)
    (h1 : env.urlValid req.url = true)
    (h2 : language_codes.lookup req.language = some lc)
    (h3 : extract_video_id req.url = none) :
    summarize env req =
      (.httpError 500 "Error occurred: 400: Invalid YouTube URL", []) := by
  simp [summarize, tryBody, h1, h2, h3, http_exc_text]
  decide

/-- Witness for C1 at the valid URL `https://example.com`, which contains
no 11-character token. -/
theorem summarize_no_video_id_witness :
    summarize testEnv (mkSummarizeRequest "g" "y" "https://example.com" none) =
      (.httpError 500 "Error occurred: 400: Invalid YouTube URL", []) :=
  summarize_no_video_id testEnv _ "en" rfl (by decide) (by decide)

/-- Claim C2 (actual behaviour): when the transcript fetch yields no text,
the `HTTPException(404, "Transcript not available")` raised inside the
`try:` block is caught by `except Exception` and resurfaces as a 500
response wrapping its text, instead of the 404 the claim states. -/
theorem summarize_no_transcript (env : Env) (req : SummarizeRequest)
    (lc vid title description : String) (tr : Option String)
    (h1 : env.urlValid req.url = true)
    (h2 : language_codes.lookup req.language = some lc)
    (h3 : extract_video_id req.url = some vid)
    (h4 : env.videoDetails req.youtube_api_key vid = .ok (title, description))
    (h5 : (get_transcript env vid lc).1 = .ok tr)
    (h6 : transcript_falsy tr = true) :
    summarize env req =
      (.httpError 500 "Error occurred: 404: Transcript not available",
       [.videoDetailsCall req.youtube_api_key vid, .transcriptCall vid lc]) := by
  simp [summarize, tryBody, get_video_details, h1, h2, h3, h4, h5, h6, http_exc_text]
  decide

/-- Witness for C2 with a transcript API that raises. -/
theorem summarize_no_transcript_witness :
    summarize testEnvNoTr
        (mkSummarizeRequest "g" "y" "https://www.youtube.com/watch?v=dQw4w9WgXcQ" none) =
      (.httpError 500 "Error occurred: 404: Transcript not available",
       [.videoDetailsCall "y" "dQw4w9WgXcQ", .transcriptCall "dQw4w9WgXcQ" "en"]) :=
  summarize_no_transcript testEnvNoTr _ "en" "dQw4w9WgXcQ" "T" "D" none rfl
    (by decide) (by decide) rfl rfl rfl

/-- Claim C3: any exception raised by the metadata fetch, or by the LLM
call on an otherwise complete pipeline, surfaces as a 500 response whose
detail contains the exception message. -/
theorem summarize_upstream_error (env : Env) (req : SummarizeRequest)
    (lc vid e : String)
    (h1 : env.urlValid req.url = true)
    (h2 : language_codes.lookup req.language = some lc)
    (h3 : extract_video_id req.url = some vid)
    (h4 : env.videoDetails req.youtube_api_key vid = .error e ∨
          ∃ title description s,
            env.videoDetails req.youtube_api_key vid = .ok (title, description) ∧
            (get_transcript env vid lc).1 = .ok (some s) ∧ s.isEmpty = false ∧
            env.llm req.groq_api_key
              (prompt_format (combined_text title description s) req.language) =
              .error e) :
    apiStatus (summarize env req).1 = 500 ∧
    strContains (apiDetail (summarize env req).1) e := by
  rcases h4 with h4 | ⟨title, description, s, h4, h5, h6, h7⟩
  · simp [summarize, tryBody, get_video_details, h1, h2, h3, h4, apiStatus, apiDetail]
    exact ⟨"Error occurred: ", "", by simp⟩
  · simp [summarize, tryBody, get_video_details, transcript_falsy,
      h1, h2, h3, h4, h5, h6, h7, apiStatus, apiDetail]
    exact ⟨"Error occurred: ", "", by simp⟩

/-- Witness for C3 with a video API that raises `quota exceeded`. -/
theorem summarize_upstream_error_witness :
    apiStatus ((summarize testEnvDetailsErr
        (mkSummarizeRequest "g" "y" "https://www.youtube.com/watch?v=dQw4w9WgXcQ" none)).1) =
        500 ∧
    strContains (apiDetail ((summarize testEnvDetailsErr
        (mkSummarizeRequest "g" "y" "https://www.youtube.com/watch?v=dQw4w9WgXcQ" none)).1))
      "quota exceeded" :=
  summarize_upstream_error testEnvDetailsErr _ "en" "dQw4w9WgXcQ" "quota exceeded"
    rfl (by decide) (by decide) (Or.inl rfl)

/-- Claim C4: with upstream results title `T`, description `D` and
transcript `hello world`, the assembled text contains the literal
substrings `Title: T`, `Description: D` and `Transcript: hello world`,
and the endpoint returns status 200 with the summary equal to the LLM
output. -/
theorem summarize_success_mocked (env : Env) (req : SummarizeRequest)
    (lc vid out : String)
    (h1 : env.urlValid req.url = true)
    (h2 : language_codes.lookup req.language = some lc)
    (h3 : extract_video_id req.url = some vid)
    (h4 : env.videoDetails req.youtube_api_key vid = .ok ("T", "D"))
    (h5 : (get_transcript env vid lc).1 = .ok (some "hello world"))
    (h6 : env.llm req.groq_api_key
        (prompt_format (combined_text "T" "D" "hello world") req.language) = .ok out) :
    strContains (combined_text "T" "D" "hello world") "Title: T" ∧
    strContains (combined_text "T" "D" "hello world") "Description: D" ∧
    strContains (combined_text "T" "D" "hello world") "Transcript: hello world" ∧
    (summarize env req).1 = .ok out ∧
    apiStatus (summarize env req).1 = 200 := by
  refine ⟨⟨"", "\n\nDescription: D\n\nTranscript: hello world", by decide⟩,
    ⟨"Title: T\n\n", "\n\nTranscript: hello world", by decide⟩,
    ⟨"Title: T\n\nDescription: D\n\n", "", by decide⟩, ?_⟩
  have hne : ("hello world" : String).isEmpty = false := by decide
  simp [summarize, tryBody, get_video_details, transcript_falsy,
    h1, h2, h3, h4, h5, h6, hne, apiStatus]

/-- Witness for C4 in the all-good environment. -/
theorem summarize_success_mocked_witness :
    strContains (combined_text "T" "D" "hello world") "Title: T" ∧
    strContains (combined_text "T" "D" "hello world") "Description: D" ∧
    strContains (combined_text "T" "D" "hello world") "Transcript: hello world" ∧
    (summarize testEnv
        (mkSummarizeRequest "g" "y" "https://www.youtube.com/watch?v=dQw4w9WgXcQ" none)).1 =
      .ok "SUM" ∧
    apiStatus ((summarize testEnv
        (mkSummarizeRequest "g" "y" "https://www.youtube.com/watch?v=dQw4w9WgXcQ" none)).1) =
      200 :=
  summarize_success_mocked testEnv _ "en" "dQw4w9WgXcQ" "SUM"
    rfl (by decide) (by decide) rfl rfl rfl

/-- Claim C8: `get_transcript` never raises: for every environment, video
id and language code it returns a value; a raising transcript API is
converted to `none` with the error printed to the console, and a
successful fetch is the space-join of the entry texts. -/
theorem get_transcript_total (env : Env) (vid lc : String) :
    (∃ r, (get_transcript env vid lc).1 = .ok r) ∧
    (∀ e, env.rawTranscript vid lc = .error e →
        get_transcript env vid lc = (.ok none, ["An error occurred: " ++ e])) ∧
    (∀ entries, env.rawTranscript vid lc = .ok entries →
        get_transcript env vid lc =
          (.ok (some (String.intercalate " " entries)), [])) := by
  refine ⟨?_, ?_, ?_⟩
  · cases h : env.rawTranscript vid lc <;> simp [get_transcript, h]
  · intro e h
    simp [get_transcript, h]
  · intro entries h
    simp [get_transcript, h]

/-- Witness for C8 with a raising transcript API. -/
theorem get_transcript_total_witness :
    get_transcript testEnvNoTr "dQw4w9WgXcQ" "en" =
      (.ok none, ["An error occurred: boom"]) :=
  (get_transcript_total testEnvNoTr "dQw4w9WgXcQ" "en").2.1 "boom" rfl

/-- Claim C9: the supported-language mapping has exactly ten entries with
pairwise-distinct names, every transcript code is a two-letter lowercase
(ISO 639-1 style) code, and a request that omits the language field gets
language `English`. -/
theorem language_codes_spec :
    language_codes.length = 10 ∧
    (language_codes.map Prod.fst).Nodup ∧
    language_codes.all (fun p => p.2.length = 2 && p.2.data.all Char.isLower) = true ∧
    (∀ g y u, (mkSummarizeRequest g y u none).language = "English") :=
  ⟨by decide, by decide, by decide, fun _ _ _ => rfl⟩

/-- Characterization of `takeToken`. -/
theorem takeToken_eq_some (cs t : List Char) :
    takeToken cs = some t ↔
      t.length = 11 ∧ t.all isVidChar = true ∧ cs.take 11 = t := by
  unfold takeToken
  split
  next h =>
    simp only [Bool.and_eq_true, decide_eq_true_eq] at h
    constructor
    · intro h2
      injection h2 with h3
      subst h3
      exact ⟨h.1, h.2, rfl⟩
    · rintro ⟨hl, ha, ht⟩
      rw [ht]
  next h =>
    simp only [Bool.and_eq_true, decide_eq_true_eq, not_and] at h
    constructor
    · intro h2
      simp at h2
    · rintro ⟨hl, ha, ht⟩
      rw [ht] at h
      exact absurd ha (h hl)

/-- Characterization of `matchTail`. -/
theorem matchTail_eq_some (c : Char) (rest t : List Char) :
    matchTail c rest = some t ↔
      (c = '/' ∧ takeToken rest = some t) ∨
      (c = 'v' ∧ ∃ r2, rest = '=' :: r2 ∧ takeToken r2 = some t) := by
  unfold matchTail
  by_cases hc : c = '/'
  · subst hc
    have hne : ¬ (('/' : Char) = 'v') := by decide
    simp [hne]
  · rw [if_neg hc]
    cases rest with
    | nil =>
      simp [hc]
    | cons c2 r2 =>
      by_cases hv : c = 'v'
      · subst hv
        by_cases he : c2 = '='
        · subst he
          simp
        · have hb : (('v' : Char) = 'v' && decide (c2 = '=')) = false := by
            simp [he]
          simp [hb, he]
      · have hb : (decide (c = 'v') && decide (c2 = '=')) = false := by
          simp [hv]
        simp [hb, hv, hc]

/-- A successful index lookup read off from a `drop` that is a cons. -/
theorem getElem?_of_drop_cons {α : Type} {cs : List α} {i : Nat} {c : α}
    {rest : List α} (h : cs.drop i = c :: rest) :
    cs[i]? = some c ∧ cs.drop (i + 1) = rest := by
  constructor
  · have h0 := List.getElem?_drop cs i 0
    rw [h] at h0
    simpa using h0.symm
  · have ht := List.tail_drop cs i
    rw [h] at ht
    exact ht.symm

/-- A failed index lookup read off from a `drop` that is nil. -/
theorem getElem?_of_drop_nil {α : Type} {cs : List α} {i : Nat}
    (h : cs.drop i = []) : cs[i]? = none := by
  have h0 := List.getElem?_drop cs i 0
  rw [h] at h0
  simpa using h0.symm

/-- The pattern attempt at position `i` of `cs`, characterised by index
lookups: it succeeds with `t` exactly when position `i` holds a `/`
followed by the 11-character class token `t`, or positions `i, i+1` hold
`v=` followed by the token. -/
theorem matchAt_drop_eq_some (cs : List Char) (i : Nat) (t : List Char) :
    matchAt (cs.drop i) = some t ↔
      (cs[i]? = some '/' ∧ vidToken t ∧ (cs.drop (i + 1)).take 11 = t) ∨
      (cs[i]? = some 'v' ∧ cs[i + 1]? = some '=' ∧ vidToken t ∧
        (cs.drop (i + 2)).take 11 = t) := by
  cases hd : cs.drop i with
  | nil =>
    have h0 : cs[i]? = none := getElem?_of_drop_nil hd
    simp [matchAt, h0]
  | cons c rest =>
    obtain ⟨h1, h2⟩ := getElem?_of_drop_cons hd
    show matchTail c rest = some t ↔ _
    rw [matchTail_eq_some]
    constructor
    · rintro (⟨hcr, htk⟩ | ⟨hcr, r2, hr, htk⟩)
      · left
        rw [takeToken_eq_some] at htk
        refine ⟨by rw [h1, hcr], ⟨htk.1, htk.2.1⟩, ?_⟩
        rw [h2]
        exact htk.2.2
      · right
        rw [takeToken_eq_some] at htk
        have h3 := getElem?_of_drop_cons (show cs.drop (i + 1) = '=' :: r2 by
          rw [h2, hr])
        refine ⟨by rw [h1, hcr], h3.1, ⟨htk.1, htk.2.1⟩, ?_⟩
        rw [h3.2]
        exact htk.2.2
    · rintro (⟨hcr, hv, htk⟩ | ⟨hcr, he, hv, htk⟩)
      · left
        have hcc : c = '/' := by
          rw [h1] at hcr
          exact Option.some.inj hcr
        refine ⟨hcc, ?_⟩
        rw [takeToken_eq_some]
        exact ⟨hv.1, hv.2, by rw [← h2]; exact htk⟩
      · right
        have hcc : c = 'v' := by
          rw [h1] at hcr
          exact Option.some.inj hcr
        have h4 : cs.drop (i + 1) = '=' :: cs.drop (i + 2) := by
          cases hd2 : cs.drop (i + 1) with
          | nil =>
            rw [getElem?_of_drop_nil hd2] at he
            exact absurd he (by simp)
          | cons c2 r2 =>
            obtain ⟨h5, h6⟩ := getElem?_of_drop_cons hd2
            rw [h5] at he
            rw [Option.some.inj he] at *
            rw [h6]
        refine ⟨hcc, cs.drop (i + 2), by rw [← h2, h4], ?_⟩
        rw [takeToken_eq_some]
        exact ⟨hv.1, hv.2, htk⟩

/-- `findMatch` fails exactly when the pattern fails at every position. -/
theorem findMatch_none_iff (cs : List Char) :
    findMatch cs = none ↔ ∀ i, matchAt (cs.drop i) = none := by
  induction cs with
  | nil => simp [findMatch, matchAt]
  | cons c rest ih =>
    simp only [findMatch]
    cases h : matchAt (c :: rest) with
    | some t =>
      simp only []
      constructor
      · intro h2
        simp at h2
      · intro h2
        have h3 := h2 0
        simp only [List.drop_zero] at h3
        rw [h] at h3
        simp at h3
    | none =>
      simp only []
      rw [ih]
      constructor
      · intro h2 i
        cases i with
        | zero => simpa using h
        | succ j => simpa using h2 j
      · intro h2 j
        have h3 := h2 (j + 1)
        simpa using h3

/-- `findMatch` succeeds with `t` exactly when the pattern succeeds with
`t` at some position and fails at every earlier position. -/
theorem findMatch_some_iff (cs t : List Char) :
    findMatch cs = some t ↔
      ∃ i, matchAt (cs.drop i) = some t ∧
        ∀ j, j < i → matchAt (cs.drop j) = none := by
  induction cs with
  | nil =>
    simp [findMatch, matchAt]
  | cons c rest ih =>
    simp only [findMatch]
    cases h : matchAt (c :: rest) with
    | some t2 =>
      simp only []
      constructor
      · intro h2
        injection h2 with h3
        subst h3
        refine ⟨0, by simpa using h, ?_⟩
        intro j hj
        omega
      · rintro ⟨i, hi, hmin⟩
        cases i with
        | zero =>
          simp only [List.drop_zero] at hi
          rw [h] at hi
          exact hi
        | succ j =>
          have h3 := hmin 0 (by omega)
          simp only [List.drop_zero] at h3
          rw [h] at h3
          simp at h3
    | none =>
      simp only []
      rw [ih]
      constructor
      · rintro ⟨i, hi, hmin⟩
        refine ⟨i + 1, by simpa using hi, ?_⟩
        intro j hj
        cases j with
        | zero => simpa using h
        | succ j2 => simpa using hmin j2 (by omega)
      · rintro ⟨i, hi, hmin⟩
        cases i with
        | zero =>
          simp only [List.drop_zero] at hi
          rw [h] at hi
          simp at hi
        | succ j =>
          refine ⟨j, by simpa using hi, ?_⟩
          intro j2 hj2
          simpa using hmin (j2 + 1) (by omega)

/-- A token occurrence in the sense of the claim is exactly a successful
pattern attempt at the position of its preceding `/` or `v=`. -/
theorem tokenAt_iff_matchAt (cs : List Char) (k : Nat) (t : List Char) :
    tokenAt cs k t ↔
      (1 ≤ k ∧ cs[k - 1]? = some '/' ∧ matchAt (cs.drop (k - 1)) = some t) ∨
      (2 ≤ k ∧ cs[k - 2]? = some 'v' ∧ cs[k - 1]? = some '=' ∧
        matchAt (cs.drop (k - 2)) = some t) := by
  constructor
  · rintro ⟨hv, htk, (⟨hk, hc⟩ | ⟨hk, hcv, hce⟩)⟩
    · left
      refine ⟨hk, hc, ?_⟩
      rw [matchAt_drop_eq_some]
      left
      have e1 : k - 1 + 1 = k := by omega
      rw [e1]
      exact ⟨hc, hv, htk⟩
    · right
      refine ⟨hk, hcv, hce, ?_⟩
      rw [matchAt_drop_eq_some]
      right
      have e1 : k - 2 + 1 = k - 1 := by omega
      have e2 : k - 2 + 2 = k := by omega
      rw [e1, e2]
      exact ⟨hcv, hce, hv, htk⟩
  · rintro (⟨hk, hc, hm⟩ | ⟨hk, hcv, hce, hm⟩)
    · rw [matchAt_drop_eq_some] at hm
      have e1 : k - 1 + 1 = k := by omega
      rw [e1] at hm
      rcases hm with ⟨_, hv, htk⟩ | ⟨hc2, _, _, _⟩
      · exact ⟨hv, htk, Or.inl ⟨hk, hc⟩⟩
      · rw [hc] at hc2
        exact absurd (Option.some.inj hc2) (by decide)
    · rw [matchAt_drop_eq_some] at hm
      have e1 : k - 2 + 1 = k - 1 := by omega
      have e2 : k - 2 + 2 = k := by omega
      rw [e1, e2] at hm
      rcases hm with ⟨hc2, _, _⟩ | ⟨_, _, hv, htk⟩
      · rw [hcv] at hc2
        exact absurd (Option.some.inj hc2) (by decide)
      · exact ⟨hv, htk, Or.inr ⟨hk, hcv, hce⟩⟩

/-- Claim C7: `extract_video_id` returns the first 11-character token
drawn from `[0-9A-Za-z_-]` that immediately follows a `v=` substring or a
`/` character — any result it returns is such a token at some position
that is minimal among all such token positions — and it returns `none`
exactly when no such token occurs in the URL. -/
theorem extract_video_id_spec (url : String) :
    (∀ s : String, extract_video_id url = some s →
        ∃ k, tokenAt url.data k s.data ∧
          ∀ k' t', tokenAt url.data k' t' → k ≤ k') ∧
    (extract_video_id url = none ↔ ∀ k t, ¬ tokenAt url.data k t) := by
  constructor
  · intro s hs
    unfold extract_video_id at hs
    cases hf : findMatch url.data with
    | none =>
      rw [hf] at hs
      simp at hs
    | some t =>
      rw [hf] at hs
      simp only [Option.map_some', Option.some.injEq] at hs
      subst hs
      rw [findMatch_some_iff] at hf
      obtain ⟨i, hi, hmin⟩ := hf
      rw [matchAt_drop_eq_some] at hi
      rcases hi with ⟨hc, hv, htk⟩ | ⟨hcv, hce, hv, htk⟩
      · refine ⟨i + 1, ⟨hv, htk, Or.inl ⟨by omega, by simpa using hc⟩⟩, ?_⟩
        intro k' t' ht'
        rw [tokenAt_iff_matchAt] at ht'
        rcases ht' with ⟨hk, _, hm⟩ | ⟨hk, _, _, hm⟩
        · have hge : ¬ (k' - 1 < i) := by
            intro hlt
            rw [hmin _ hlt] at hm
            exact Option.noConfusion hm
          omega
        · have hge : ¬ (k' - 2 < i) := by
            intro hlt
            rw [hmin _ hlt] at hm
            exact Option.noConfusion hm
          omega
      · refine ⟨i + 2,
          ⟨hv, htk, Or.inr ⟨by omega, by simpa using hcv, by simpa using hce⟩⟩, ?_⟩
        intro k' t' ht'
        rw [tokenAt_iff_matchAt] at ht'
        rcases ht' with ⟨hk, hsl, hm⟩ | ⟨hk, _, _, hm⟩
        · have hge : ¬ (k' - 1 < i) := by
            intro hlt
            rw [hmin _ hlt] at hm
            exact Option.noConfusion hm
          rcases Nat.lt_or_ge i (k' - 1) with hlt2 | hge2
          · omega
          · have heq : k' - 1 = i := by omega
            rw [heq, hcv] at hsl
            exact absurd (Option.some.inj hsl) (by decide)
        · have hge : ¬ (k' - 2 < i) := by
            intro hlt
            rw [hmin _ hlt] at hm
            exact Option.noConfusion hm
          omega
  · constructor
    · intro hn k t ht
      unfold extract_video_id at hn
      cases hf : findMatch url.data with
      | some t2 =>
        rw [hf] at hn
        simp at hn
      | none =>
        rw [findMatch_none_iff] at hf
        rw [tokenAt_iff_matchAt] at ht
        rcases ht with ⟨_, _, hm⟩ | ⟨_, _, _, hm⟩
        · rw [hf (k - 1)] at hm
          exact Option.noConfusion hm
        · rw [hf (k - 2)] at hm
          exact Option.noConfusion hm
    · intro hno
      unfold extract_video_id
      cases hf : findMatch url.data with
      | none => rfl
      | some t =>
        exfalso
        rw [findMatch_some_iff] at hf
        obtain ⟨i, hi, hmin⟩ := hf
        rw [matchAt_drop_eq_some] at hi
        rcases hi with ⟨hc, hv, htk⟩ | ⟨hcv, hce, hv, htk⟩
        · exact hno (i + 1) t
            ⟨hv, htk, Or.inl ⟨by omega, by simpa using hc⟩⟩
        · exact hno (i + 2) t
            ⟨hv, htk, Or.inr ⟨by omega, by simpa using hcv, by simpa using hce⟩⟩

/-- Witness for C7 at the URL `https://youtu.be/dQw4w9WgXcQ`. -/
theorem extract_video_id_spec_witness :
    ∃ k, tokenAt ("https://youtu.be/dQw4w9WgXcQ" : String).data k
        ("dQw4w9WgXcQ" : String).data ∧
      ∀ k' t', tokenAt ("https://youtu.be/dQw4w9WgXcQ" : String).data k' t' →
        k ≤ k' :=
  (extract_video_id_spec "https://youtu.be/dQw4w9WgXcQ").1 "dQw4w9WgXcQ" (by decide)
